import Mathlib

/-!
Verification development for the mcp-translation-server repository.

Shallow embedding of:
* `src/rate_limiter.py` — `TokenBucket`, `RateLimiter`;
* `src/batch_processor_v2.py` — `PrioritizedItem`, `BatchConfig`, `BatchMetrics`,
  `DynamicBatchProcessor`;
* `src/api/cache_manager.py` — `CacheItem`, `CacheConfig`, `CacheManager`.

Conventions: Python floats are modelled as `ℚ` (exact arithmetic), except the
eviction score of the cache manager, which uses `Real.log` (`np.log1p`) and is
modelled over `ℝ`.  Wall-clock instants (`time.time()`, `datetime.now()`) are
explicit `ℚ` parameters.  Python `dict`s are association lists keeping insertion
order (the semantics of `dict`/`OrderedDict`); Python `set`s of strings are
`List String` with no duplicate insertion.
-/

/-- Association-list lookup: first binding of the key, as for a Python dict. -/
def alLookup {β : Type} (k : String) : List (String × β) → Option β
  | [] => none
  | (k2, v) :: rest => if k2 = k then some v else alLookup k rest

/-- Association-list update: replace the first binding in place (Python dict
update keeps the key position); append at the end when the key is absent. -/
def alSet {β : Type} (k : String) (v : β) : List (String × β) → List (String × β)
  | [] => [(k, v)]
  | (k2, v2) :: rest => if k2 = k then (k2, v) :: rest else (k2, v2) :: alSet k v rest

/-- Association-list deletion of the first binding of the key (Python del). -/
def alErase {β : Type} (k : String) : List (String × β) → List (String × β)
  | [] => []
  | (k2, v2) :: rest => if k2 = k then rest else (k2, v2) :: alErase k rest

theorem alLookup_alSet_ne {β : Type} (k k2 : String) (v : β) (l : List (String × β))
    (h : k2 ≠ k) : alLookup k (alSet k2 v l) = alLookup k l := by
  induction l with
  | nil => simp [alSet, alLookup, h]
  | cons p rest ih =>
    obtain ⟨k3, v3⟩ := p
    by_cases h3 : k3 = k2
    · subst h3
      simp [alSet, alLookup, h]
    · simp only [alSet, if_neg h3]
      by_cases h4 : k3 = k
      · simp [alLookup, h4]
      · simp [alLookup, h4, ih]

theorem alLookup_append_self {β : Type} (k : String) (v : β) (l : List (String × β))
    (h : alLookup k l = none) : alLookup k (l ++ [(k, v)]) = some v := by
  induction l with
  | nil => simp [alLookup]
  | cons p rest ih =>
    obtain ⟨k2, v2⟩ := p
    by_cases h2 : k2 = k
    · simp [alLookup, h2] at h
    · simp only [alLookup, if_neg h2] at h ⊢
      exact ih h

theorem alLookup_alErase_none {β : Type} (k k2 : String) (l : List (String × β))
    (h : alLookup k l = none) : alLookup k (alErase k2 l) = none := by
  induction l with
  | nil => simp [alErase, alLookup]
  | cons p rest ih =>
    obtain ⟨k3, v3⟩ := p
    by_cases h3 : k3 = k
    · simp [alLookup, h3] at h
    · simp only [alLookup, if_neg h3] at h
      by_cases h4 : k3 = k2
      · simp only [alErase, if_pos h4]
        exact h
      · simp only [alErase, if_neg h4, alLookup, if_neg h3]
        exact ih h

/-! ## src/rate_limiter.py -/

/-- State of `TokenBucket` (`src/rate_limiter.py`, lines 13-20): `rate` and
`capacity` from the constructor, `tokens` starts at `capacity`, `last_update`
at the construction instant. -/
structure TokenBucket where
  rate : ℚ
  capacity : ℚ
  tokens : ℚ
  last_update : ℚ
  deriving DecidableEq

/-- Constructor of `TokenBucket(rate, capacity)` at wall-clock instant `now`. -/
def TokenBucket.mkBucket (rate capacity now : ℚ) : TokenBucket :=
  { rate := rate, capacity := capacity, tokens := capacity, last_update := now }

/-- `TokenBucket._update_tokens` (lines 22-27): refill proportionally to the
elapsed time, capped at the capacity. -/
def update_tokens (now : ℚ) (b : TokenBucket) : TokenBucket :=
  { b with
    tokens := min b.capacity (b.tokens + (now - b.last_update) * b.rate),
    last_update := now }

/-- `TokenBucket.try_acquire` (lines 29-35): refill first, then take `req`
tokens if available. `req` is the Python `tokens: int = 1` argument. -/
def try_acquire (req : ℤ) (now : ℚ) (b : TokenBucket) : Bool × TokenBucket :=
  let b2 := update_tokens now b
  if (req : ℚ) ≤ b2.tokens then (true, { b2 with tokens := b2.tokens - (req : ℚ) })
  else (false, b2)

/-- Repeated `try_acquire(1)` calls at one instant; returns the list of results
and the final bucket. Used to express the 20-consecutive-calls scenario. -/
def acquireSeq : ℕ → ℚ → TokenBucket → List Bool × TokenBucket
  | 0, _, b => ([], b)
  | n + 1, now, b =>
    let r := try_acquire 1 now b
    let rest := acquireSeq n now r.2
    (r.1 :: rest.1, rest.2)

/-- `RateLimitRule` (lines 7-11). -/
structure RateLimitRule where
  requests_per_second : ℤ
  burst_size : ℤ
  deriving DecidableEq

/-- State of `RateLimiter` (lines 37-42): the rules and per-endpoint buckets. -/
structure RateLimiterState where
  limiters : List (String × TokenBucket)
  rules : List (String × RateLimitRule)

/-- `RateLimiter.__init__`: both dicts empty. -/
def rateLimiterInit : RateLimiterState := { limiters := [], rules := [] }

/-- `RateLimiter.add_rule` (lines 44-51): record the rule and build a bucket
with `rate = requests_per_second` and `capacity = max(requests_per_second,
burst_size)`; the bucket is created at instant `now`. -/
def add_rule (endpoint : String) (rule : RateLimitRule) (now : ℚ)
    (s : RateLimiterState) : RateLimiterState :=
  { rules := alSet endpoint rule s.rules,
    limiters := alSet endpoint
      (TokenBucket.mkBucket (rule.requests_per_second : ℚ)
        ((max rule.requests_per_second rule.burst_size : ℤ) : ℚ) now) s.limiters }

/-- `RateLimiter.check_rate_limit` (lines 53-58): endpoints with no bucket are
admitted unconditionally; otherwise delegate to the bucket (whose in-place
mutation is modelled by writing the bucket back). -/
def check_rate_limit (endpoint : String) (now : ℚ) (s : RateLimiterState) :
    Bool × RateLimiterState :=
  match alLookup endpoint s.limiters with
  | none => (true, s)
  | some b =>
    let r := try_acquire 1 now b
    (r.1, { s with limiters := alSet endpoint r.2 s.limiters })

/-! ## src/batch_processor_v2.py -/

/-- `PrioritizedItem` (`src/batch_processor_v2.py`, lines 10-16).  The
`content: Any` payload is modelled as a `String`. -/
structure PrioritizedItem where
  priority : ℤ
  timestamp : ℚ
  item_id : String
  content : String
  deriving DecidableEq

/-- Heap order of `PrioritizedItem` induced by `@dataclass(order=True)`:
lexicographic on the field tuple, so `(priority, timestamp)` first.  Items
equal on both keys would fall through to `item_id`/`content` comparison in
Python; they are treated as equivalent here (the claims never produce such
ties). -/
def itemLEP (a b : PrioritizedItem) : Prop :=
  a.priority < b.priority ∨ (a.priority = b.priority ∧ a.timestamp ≤ b.timestamp)

instance : DecidableRel itemLEP := fun a b =>
  inferInstanceAs
    (Decidable (a.priority < b.priority ∨ (a.priority = b.priority ∧ a.timestamp ≤ b.timestamp)))

instance : IsTotal PrioritizedItem itemLEP := by
  constructor
  intro a b
  rcases lt_trichotomy a.priority b.priority with h | h | h
  · exact Or.inl (Or.inl h)
  · rcases le_total a.timestamp b.timestamp with h2 | h2
    · exact Or.inl (Or.inr ⟨h, h2⟩)
    · exact Or.inr (Or.inr ⟨h.symm, h2⟩)
  · exact Or.inr (Or.inl h)

instance : IsTrans PrioritizedItem itemLEP := by
  constructor
  intro a b c hab hbc
  rcases hab with h1 | ⟨h1, h1t⟩
  · rcases hbc with h2 | ⟨h2, _⟩
    · exact Or.inl (h1.trans h2)
    · exact Or.inl (h2 ▸ h1)
  · rcases hbc with h2 | ⟨h2, h2t⟩
    · exact Or.inl (h1 ▸ h2)
    · exact Or.inr ⟨h1.trans h2, h1t.trans h2t⟩

/-- Popping a Python `PriorityQueue` (a binary min-heap) repeatedly yields the
elements in ascending heap order; the model therefore drains from the sorted
queue.  `List.insertionSort` is a stable sort, matching the determinism of the
heap on the claims' tie-free inputs. -/
def sortAsc (l : List PrioritizedItem) : List PrioritizedItem :=
  List.insertionSort itemLEP l

/-- `BatchConfig` (lines 18-30). -/
structure BatchConfig where
  min_batch_size : ℤ
  max_batch_size : ℤ
  max_wait_time : ℚ
  target_latency : ℚ
  deriving DecidableEq

/-- `BatchMetrics` state (lines 32-38). -/
structure BatchMetrics where
  batch_sizes : List ℕ
  processing_times : List ℚ
  waiting_times : List ℚ
  queue_lengths : List ℕ
  deriving DecidableEq

/-- Python slice `l[-n:]`: the last `n` elements. -/
def keepLast {α : Type} (n : ℕ) (l : List α) : List α := l.drop (l.length - n)

/-- `BatchMetrics.update` (lines 40-59): append the sample, keep the most
recent 1000 samples of each series. -/
def BatchMetrics.update2 (m : BatchMetrics) (batch_size : ℕ) (processing_time : ℚ)
    (waiting_time : ℚ) (queue_length : ℕ) : BatchMetrics :=
  let m2 : BatchMetrics :=
    { batch_sizes := m.batch_sizes ++ [batch_size],
      processing_times := m.processing_times ++ [processing_time],
      waiting_times := m.waiting_times ++ [waiting_time],
      queue_lengths := m.queue_lengths ++ [queue_length] }
  if 1000 < m2.batch_sizes.length then
    { batch_sizes := keepLast 1000 m2.batch_sizes,
      processing_times := keepLast 1000 m2.processing_times,
      waiting_times := keepLast 1000 m2.waiting_times,
      queue_lengths := keepLast 1000 m2.queue_lengths }
  else m2

/-- `np.mean(l) if l else 0` over rational samples (lines 61-79). -/
def averageQ (l : List ℚ) : ℚ := if l = [] then 0 else l.sum / l.length

/-- `np.mean(l) if l else 0` over natural-number samples. -/
def averageN (l : List ℕ) : ℚ := if l = [] then 0 else (l.sum : ℚ) / l.length

/-- Python `int(x)` on a float: truncation toward zero. -/
def pyInt (q : ℚ) : ℤ := if q < 0 then ⌈q⌉ else ⌊q⌋

/-- State of `DynamicBatchProcessor` (lines 81-99): per-batch-type priority
queues, results, in-flight id sets and formation events (total functions with
the defaultdict/`_get_or_create_queue` defaults), plus the result cache keyed
by strings of the shape batch_type:item_id. -/
structure BatchState where
  queues : String → List PrioritizedItem
  results : String → List (String × String)
  processing : String → List String
  events : String → Bool
  cache : List (String × String)
  metrics : BatchMetrics

/-- `DynamicBatchProcessor.__init__`: everything empty, events cleared. -/
def batchInit : BatchState :=
  { queues := fun _ => [], results := fun _ => [], processing := fun _ => [],
    events := fun _ => false, cache := [],
    metrics := { batch_sizes := [], processing_times := [], waiting_times := [],
                 queue_lengths := [] } }

/-- `DynamicBatchProcessor.add_to_batch` (lines 109-139): return unchanged on a
cache hit; otherwise push the prioritized item and set the formation event when
the queue has reached `config.max_batch_size`. -/
def add_to_batch (cfg : BatchConfig) (s : BatchState) (batch_type : String)
    (item : String) (item_id : String) (priority : ℤ) (now : ℚ) : BatchState :=
  let cache_key := batch_type ++ ":" ++ item_id
  match alLookup cache_key s.cache with
  | some _ => s
  | none =>
    let q := s.queues batch_type ++
      [{ priority := priority, timestamp := now, item_id := item_id, content := item }]
    { s with
      queues := fun b => if b = batch_type then q else s.queues b,
      events := fun b =>
        if b = batch_type then
          (if cfg.max_batch_size ≤ (q.length : ℤ) then true else s.events b)
        else s.events b }

/-- `DynamicBatchProcessor._calculate_batch_size` (lines 187-216). -/
def calculate_batch_size (cfg : BatchConfig) (s : BatchState) (batch_type : String) : ℤ :=
  let avg_processing_time := averageQ s.metrics.processing_times
  let avg_waiting_time := averageQ s.metrics.waiting_times
  let queue_length := (s.queues batch_type).length
  let target_size :=
    if 0 < avg_processing_time then
      if cfg.target_latency < avg_processing_time then
        pyInt (averageN s.metrics.batch_sizes * (cfg.target_latency / avg_processing_time))
      else if averageN s.metrics.queue_lengths * (3 / 2) < (queue_length : ℚ) then
        pyInt (averageN s.metrics.batch_sizes * (6 / 5))
      else if cfg.max_wait_time * (4 / 5) < avg_waiting_time then
        pyInt (averageN s.metrics.batch_sizes * (4 / 5))
      else
        pyInt (averageN s.metrics.batch_sizes)
    else cfg.min_batch_size
  max cfg.min_batch_size (min cfg.max_batch_size target_size)

/-- The while loop of `get_batch` (lines 165-170): pop until the batch reaches
`size` or the queue empties; ids already in flight are skipped (and dropped),
accepted ids are added to the in-flight set.  Returns (batch, remaining queue,
in-flight set). -/
def drainLoop (size : ℤ) : List PrioritizedItem → List String → List PrioritizedItem →
    List PrioritizedItem × List PrioritizedItem × List String
  | [], proc, batch => (batch, [], proc)
  | x :: rest, proc, batch =>
    if size ≤ (batch.length : ℤ) then (batch, x :: rest, proc)
    else if x.item_id ∈ proc then drainLoop size rest proc batch
    else drainLoop size rest (x.item_id :: proc) (batch ++ [x])

/-- `DynamicBatchProcessor.get_batch` (lines 141-185): `waited` is the
measured `time.time() - start_time`.  On an empty queue nothing changes; when
every drained item was filtered the partially consumed queue is kept and
`None` is returned; otherwise the event is cleared and the metrics updated. -/
def get_batch (cfg : BatchConfig) (s : BatchState) (batch_type : String) (waited : ℚ) :
    Option (List PrioritizedItem) × BatchState :=
  if s.queues batch_type = [] then (none, s)
  else
    let size := calculate_batch_size cfg s batch_type
    let r := drainLoop size (sortAsc (s.queues batch_type)) (s.processing batch_type) []
    if r.1 = [] then
      (none, { s with
        queues := fun b => if b = batch_type then r.2.1 else s.queues b,
        processing := fun b => if b = batch_type then r.2.2 else s.processing b })
    else
      (some r.1, { s with
        queues := fun b => if b = batch_type then r.2.1 else s.queues b,
        processing := fun b => if b = batch_type then r.2.2 else s.processing b,
        events := fun b => if b = batch_type then false else s.events b,
        metrics := s.metrics.update2 r.1.length 0 waited r.2.1.length })

/-- `DynamicBatchProcessor.set_result` (lines 218-238): publish the result,
then remove the id from the in-flight set (`set.remove` raises `KeyError` when
the id is absent, after the result write and before the cache write: the
`else` branch models the state left behind by that exception). -/
def set_result (s : BatchState) (batch_type : String) (item_id : String)
    (result : String) (cache_result : Bool) : BatchState :=
  let s1 := { s with
    results := fun b =>
      if b = batch_type then alSet item_id result (s.results b) else s.results b }
  if item_id ∈ s.processing batch_type then
    let s2 := { s1 with
      processing := fun b =>
        if b = batch_type then (s.processing b).erase item_id else s.processing b }
    if cache_result then
      { s2 with cache := alSet (batch_type ++ ":" ++ item_id) result s2.cache }
    else s2
  else s1

/-! ## src/api/cache_manager.py -/

/-- `CacheItem` (`src/api/cache_manager.py`, lines 10-18).  The `value: Any`
payload is a `String`; `size` is the byte count computed by
`_calculate_item_size`.  (In the source the `last_access` default is the
`datetime.now()` evaluated once at class-definition time — a dataclass quirk;
the model stores the instant supplied when the item is built.) -/
structure CacheItem where
  key : String
  value : String
  expiry : Option ℚ
  access_count : ℕ
  last_access : ℚ
  size : ℕ
  deriving DecidableEq

/-- `CacheConfig` (lines 20-32); `default_ttl`/`cleanup_interval` in seconds. -/
structure CacheConfig where
  max_size : ℤ
  max_memory_mb : ℤ
  default_ttl : Option ℚ
  cleanup_interval : ℚ
  deriving DecidableEq

/-- The `stats` dict of `CacheManager` (lines 50-55). -/
structure CacheStats where
  hits : ℕ
  misses : ℕ
  evictions : ℕ
  memory_usage : ℤ
  deriving DecidableEq

/-- Mutable state of `CacheManager`: `_cache`, `_size_cache`, `stats`. -/
structure CacheState where
  cache : List (String × CacheItem)
  size_cache : List (String × ℕ)
  stats : CacheStats
  deriving DecidableEq

/-- `CacheManager.__init__` (lines 37-55): empty cache, zeroed stats. -/
def cacheInit : CacheState :=
  { cache := [], size_cache := [],
    stats := { hits := 0, misses := 0, evictions := 0, memory_usage := 0 } }

/-- `CacheManager._remove_item` (lines 99-106): drop the item from both dicts,
subtract its size from the running memory total, count an eviction. -/
def remove_item (key : String) (s : CacheState) : CacheState :=
  match alLookup key s.cache with
  | none => s
  | some item =>
    { cache := alErase key s.cache,
      size_cache := alErase key s.size_cache,
      stats := { s.stats with
        memory_usage := s.stats.memory_usage - (item.size : ℤ),
        evictions := s.stats.evictions + 1 } }

/-- The `frequency_factor` of `_evict_items` (line 118): `np.log1p(access_count)`. -/
noncomputable def frequencyFactor (item : CacheItem) : ℝ :=
  Real.log (1 + (item.access_count : ℝ))

/-- The eviction score of `_evict_items` (lines 117-122):
`(seconds since last access × size in KB) / log1p(access_count)`. -/
noncomputable def itemScore (now : ℚ) (item : CacheItem) : ℝ :=
  (((now : ℝ) - (item.last_access : ℝ)) * ((item.size : ℝ) / 1024)) / frequencyFactor item

/-- `items_scores.sort(key=..., reverse=True)` (line 126): stable sort by
descending score. -/
noncomputable def sortScoresDesc (l : List (String × ℝ)) : List (String × ℝ) :=
  List.insertionSort (fun a b => b.2 ≤ a.2) l

/-- The eviction loop of `_evict_items` (lines 128-136): walk the scored keys,
removing each and accumulating freed space, stopping once the requirement is
met.  (A key absent from the cache would raise `KeyError` in the source; that
case is unreachable because the keys are the cache's own and the loop aborts
there in the model.) -/
def evictLoop (required_space : ℤ) : List (String × ℝ) → ℤ → CacheState → CacheState
  | [], _, s => s
  | (key, _) :: rest, freed_space, s =>
    match alLookup key s.cache with
    | none => s
    | some item =>
      let freed2 := freed_space + (item.size : ℤ)
      let s2 := remove_item key s
      if required_space ≤ freed2 then s2 else evictLoop required_space rest freed2 s2

/-- `CacheManager._evict_items` (lines 108-136). -/
noncomputable def evict_items (now : ℚ) (required_space : ℤ) (s : CacheState) : CacheState :=
  if s.cache = [] then s
  else evictLoop required_space
    (sortScoresDesc (s.cache.map fun p => (p.1, itemScore now p.2))) 0 s

/-- Python truthiness of a timedelta: zero is falsy.  `pyOrTtl a b` is the
value of the expression a or b over optional timedeltas. -/
def pyOrTtl (a b : Option ℚ) : Option ℚ :=
  match a with
  | some t => if t = 0 then b else some t
  | none => b

/-- The expiry computation of `set` (lines 147-150): `datetime.now() + (ttl or
default_ttl)` when `ttl or default_ttl` is truthy, else `None`. -/
def computeExpiry (cfg : CacheConfig) (ttl : Option ℚ) (now : ℚ) : Option ℚ :=
  match pyOrTtl ttl cfg.default_ttl with
  | some t => if t = 0 then none else some (now + t)
  | none => none

/-- The update-or-add part of `CacheManager.set` (lines 170-191): update an
existing item in place (first crediting its old size back) or append a fresh
item, then debit the new size and record it in `_size_cache`. -/
def cacheSetStore (key : String) (value : String) (size : ℕ) (expiry : Option ℚ)
    (now : ℚ) (s1 : CacheState) : CacheState :=
  let s2 :=
    match alLookup key s1.cache with
    | some item =>
      { s1 with
        cache := alSet key
          { item with value := value, expiry := expiry, size := size,
                      last_access := now } s1.cache,
        stats := { s1.stats with
          memory_usage := s1.stats.memory_usage - (item.size : ℤ) } }
    | none =>
      { s1 with
        cache := s1.cache ++
          [(key, CacheItem.mk key value expiry 0 now size)] }
  { s2 with
    stats := { s2.stats with memory_usage := s2.stats.memory_usage + (size : ℤ) },
    size_cache := alSet key size s2.size_cache }

/-- `CacheManager.set` (lines 138-191).  `size` stands for
`_calculate_item_size(value)` (the UTF-8 length of the JSON encoding), passed
in because the claims depend only on its value.  An oversized item raises
`ValueError` before any mutation, leaving the state unchanged. -/
noncomputable def cacheSet (cfg : CacheConfig) (key : String) (value : String)
    (size : ℕ) (ttl : Option ℚ) (now : ℚ) (s : CacheState) : CacheState :=
  let expiry := computeExpiry cfg ttl now
  if cfg.max_memory_mb * 1024 * 1024 < (size : ℤ) then s
  else
    let required_space : ℤ :=
      match alLookup key s.cache with
      | some item => (size : ℤ) - (item.size : ℤ)
      | none => (size : ℤ)
    let s1 :=
      if cfg.max_memory_mb * 1024 * 1024 < s.stats.memory_usage + required_space then
        evict_items now required_space s
      else s
    cacheSetStore key value size expiry now s1

/-- `CacheManager.get` (lines 193-213): expired items are removed and counted
as misses; hits bump `access_count` and refresh `last_access`. -/
def cacheGet (key : String) (now : ℚ) (s : CacheState) : Option String × CacheState :=
  match alLookup key s.cache with
  | some item =>
    if (match item.expiry with | some e => decide (e ≤ now) | none => false) then
      let s2 := remove_item key s
      (none, { s2 with stats := { s2.stats with misses := s2.stats.misses + 1 } })
    else
      (some item.value,
        { s with
          cache := alSet key
            { item with access_count := item.access_count + 1, last_access := now } s.cache,
          stats := { s.stats with hits := s.stats.hits + 1 } })
  | none => (none, { s with stats := { s.stats with misses := s.stats.misses + 1 } })

/-- `CacheManager.remove` (lines 215-218). -/
def cacheRemove (key : String) (s : CacheState) : CacheState := remove_item key s

/-- `CacheManager.clear_cache` (lines 220-225). -/
def cacheClear (s : CacheState) : CacheState :=
  { cache := [], size_cache := [],
    stats := { s.stats with memory_usage := 0 } }

/-- An operation on the cache manager, for quantifying over call sequences. -/
inductive CacheOp where
  | opSet (key value : String) (size : ℕ) (ttl : Option ℚ) (now : ℚ)
  | opGet (key : String) (now : ℚ)
  | opRemove (key : String)
  | opEvict (required_space : ℤ) (now : ℚ)
  | opClear

/-- Interpretation of one cache operation. -/
noncomputable def applyCacheOp (cfg : CacheConfig) (s : CacheState) : CacheOp → CacheState
  | CacheOp.opSet key value size ttl now => cacheSet cfg key value size ttl now s
  | CacheOp.opGet key now => (cacheGet key now s).2
  | CacheOp.opRemove key => cacheRemove key s
  | CacheOp.opEvict required now => evict_items now required s
  | CacheOp.opClear => cacheClear s

/-- A finite sequence of cache-manager calls, applied in order. -/
noncomputable def runCacheOps (cfg : CacheConfig) (ops : List CacheOp) (s : CacheState) :
    CacheState :=
  ops.foldl (applyCacheOp cfg) s

/-- The total size of the items currently stored, as an integer byte count. -/
def memSum (s : CacheState) : ℤ :=
  (s.cache.map fun p => ((p.2.size : ℤ))).sum

/-! ## Theorems -/

/-- C5: `TokenBucket.try_acquire` first recomputes
`tokens = min(capacity, tokens + elapsed * rate)`, then subtracts the request
and returns true exactly when at least one token is available, leaving the
refilled count unchanged on failure; with rate 10/s and capacity 20, twenty
consecutive calls at one instant all succeed and empty the bucket, the next
call fails, and a later call succeeds iff at least 0.1 s have elapsed. -/
theorem try_acquire_true_iff (b : TokenBucket) (now : ℚ) (req : ℤ) :
    ((try_acquire req now b).1 = true ↔ (req : ℚ) ≤ (update_tokens now b).tokens) ∧
    ((try_acquire req now b).1 = false →
      (try_acquire req now b).2 = update_tokens now b) := by
  constructor
  · by_cases h : (req : ℚ) ≤ (update_tokens now b).tokens <;>
      simp [try_acquire, h]
  · intro h
    by_cases h2 : (req : ℚ) ≤ (update_tokens now b).tokens
    · simp [try_acquire, h2] at h
    · simp [try_acquire, h2]

theorem try_acquire_step (r c t now : ℚ) (hc : t ≤ c) (h1 : 1 ≤ t) :
    try_acquire 1 now (TokenBucket.mk r c t now) =
      (true, TokenBucket.mk r c (t - 1) now) := by
  unfold try_acquire update_tokens
  simp only [sub_self, zero_mul, add_zero, Int.cast_one]
  rw [min_eq_right hc, if_pos h1]

theorem acquireSeq_same_instant :
    ∀ (n : ℕ) (r c t now : ℚ), t ≤ c → (n : ℚ) ≤ t →
      acquireSeq n now (TokenBucket.mk r c t now) =
        (List.replicate n true, TokenBucket.mk r c (t - n) now) := by
  intro n
  induction n with
  | zero => intro r c t now _ _; simp [acquireSeq]
  | succ n ih =>
    intro r c t now hc hn
    have hge : (0 : ℚ) ≤ (n : ℚ) := Nat.cast_nonneg n
    have hn2 : ((n : ℕ) : ℚ) + 1 ≤ t := by push_cast at hn ⊢; linarith
    have h1 : (1 : ℚ) ≤ t := by linarith
    simp only [acquireSeq, try_acquire_step r c t now hc h1]
    rw [ih r c (t - 1) now (by linarith) (by linarith)]
    have harith : t - 1 - (n : ℚ) = t - (((n : ℕ) + 1 : ℕ) : ℚ) := by
      push_cast
      ring
    simp [List.replicate_succ, harith]

/-- C5: `TokenBucket.try_acquire` first recomputes
`tokens = min(capacity, tokens + elapsed * rate)`, then subtracts the request
and returns true exactly when at least one token is available, leaving the
refilled count unchanged on failure; with rate 10/s and capacity 20, twenty
consecutive calls at one instant all succeed and empty the bucket, the next
call fails, and a later call succeeds iff at least 0.1 s have elapsed. -/
theorem try_acquire_spec :
    (∀ (b : TokenBucket) (now : ℚ) (req : ℤ),
      ((try_acquire req now b).1 = true ↔ (req : ℚ) ≤ (update_tokens now b).tokens) ∧
      ((try_acquire req now b).1 = false →
        (try_acquire req now b).2 = update_tokens now b)) ∧
    (acquireSeq 20 0 (TokenBucket.mkBucket 10 20 0) =
      (List.replicate 20 true,
        { rate := 10, capacity := 20, tokens := 0, last_update := 0 })) ∧
    ((try_acquire 1 0 (TokenBucket.mk 10 20 0 0)).1 = false) ∧
    (∀ d : ℚ, 0 ≤ d →
      ((try_acquire 1 d (TokenBucket.mk 10 20 0 0)).1 = true ↔ 1 / 10 ≤ d)) := by
  refine ⟨try_acquire_true_iff, ?_, ?_, ?_⟩
  · have h := acquireSeq_same_instant 20 10 20 20 0 le_rfl (by norm_num)
    rw [show TokenBucket.mkBucket 10 20 0 = TokenBucket.mk 10 20 20 0 from rfl, h]
    norm_num
  · unfold try_acquire update_tokens
    simp only [sub_self, zero_mul, add_zero, Int.cast_one]
    rw [min_eq_right (by norm_num : (0 : ℚ) ≤ 20), if_neg (by norm_num : ¬(1 : ℚ) ≤ 0)]
  · intro d hd
    refine ((try_acquire_true_iff (TokenBucket.mk 10 20 0 0) d 1).1).trans ?_
    show ((1 : ℤ) : ℚ) ≤ min 20 (0 + (d - 0) * 10) ↔ 1 / 10 ≤ d
    rw [Int.cast_one, zero_add, sub_zero]
    constructor
    · intro h
      have h2 := (le_min_iff.mp h).2
      linarith
    · intro h
      exact le_min_iff.mpr ⟨by norm_num, by linarith⟩

/-- C5 witness: the characterization and the recovery equivalence at the
concrete elapsed time 0.2 s. -/
theorem try_acquire_spec_witness :
    (((try_acquire 1 0 (TokenBucket.mkBucket 10 20 0)).1 = true ↔
       (1 : ℚ) ≤ (update_tokens 0 (TokenBucket.mkBucket 10 20 0)).tokens)) ∧
    (0 ≤ (1 / 5 : ℚ)) ∧
    ((try_acquire 1 (1 / 5) (TokenBucket.mk 10 20 0 0)).1 = true ↔
      1 / 10 ≤ (1 / 5 : ℚ)) :=
  ⟨(try_acquire_spec.1 (TokenBucket.mkBucket 10 20 0) 0 1).1, by norm_num,
    try_acquire_spec.2.2.2 (1 / 5) (by norm_num)⟩

/-- State reached from a fresh `RateLimiter` by a sequence of `add_rule`
calls, each given as (endpoint, rule, creation instant). -/
def addRules (adds : List (String × RateLimitRule × ℚ)) : RateLimiterState :=
  adds.foldl (fun st a => add_rule a.1 a.2.1 a.2.2 st) rateLimiterInit

theorem addRules_lookup_none (endpoint : String) :
    ∀ (adds : List (String × RateLimitRule × ℚ)) (st : RateLimiterState),
      alLookup endpoint st.limiters = none →
      (∀ a ∈ adds, a.1 ≠ endpoint) →
      alLookup endpoint
        (adds.foldl (fun st a => add_rule a.1 a.2.1 a.2.2 st) st).limiters = none := by
  intro adds
  induction adds with
  | nil => intro st h _; simpa using h
  | cons a rest ih =>
    intro st h hall
    simp only [List.foldl_cons]
    refine ih _ ?_ ?_
    · show alLookup endpoint (alSet a.1 _ st.limiters) = none
      rw [alLookup_alSet_ne endpoint a.1 _ st.limiters (hall a (by simp))]
      exact h
    · intro x hx
      exact hall x (by simp [hx])

/-- C10: admission is fail-open: for every endpoint with no rule registered by
`add_rule`, `check_rate_limit` returns true and leaves the limiter state (and
hence every token count) unchanged. -/
theorem check_rate_limit_fail_open :
    ∀ (adds : List (String × RateLimitRule × ℚ)) (endpoint : String) (now : ℚ),
      (∀ a ∈ adds, a.1 ≠ endpoint) →
      check_rate_limit endpoint now (addRules adds) = (true, addRules adds) := by
  intro adds endpoint now h
  have hnone : alLookup endpoint (addRules adds).limiters = none :=
    addRules_lookup_none endpoint adds rateLimiterInit (by simp [rateLimiterInit, alLookup]) h
  unfold check_rate_limit
  rw [hnone]

/-- C10 witness: an unregistered endpoint next to one registered rule. -/
theorem check_rate_limit_fail_open_witness :
    (∀ a ∈ [(("a" : String), (RateLimitRule.mk 5 0), (0 : ℚ))], a.1 ≠ "b") ∧
    check_rate_limit "b" 0 (addRules [("a", RateLimitRule.mk 5 0, 0)]) =
      (true, addRules [("a", RateLimitRule.mk 5 0, 0)]) :=
  ⟨by decide, check_rate_limit_fail_open [("a", RateLimitRule.mk 5 0, 0)] "b" 0 (by decide)⟩

theorem drainLoop_batch_sublist (size : ℤ) :
    ∀ (l : List PrioritizedItem) (proc : List String) (acc : List PrioritizedItem),
      ∃ t, (drainLoop size l proc acc).1 = acc ++ t ∧ t.Sublist l := by
  intro l
  induction l with
  | nil =>
    intro proc acc
    exact ⟨[], by simp [drainLoop], List.nil_sublist []⟩
  | cons x rest ih =>
    intro proc acc
    by_cases h1 : size ≤ (acc.length : ℤ)
    · exact ⟨[], by simp [drainLoop, h1], List.nil_sublist _⟩
    · by_cases h2 : x.item_id ∈ proc
      · obtain ⟨t, ht, hs⟩ := ih proc acc
        exact ⟨t, by simp only [drainLoop, if_neg h1, if_pos h2]; exact ht, hs.cons x⟩
      · obtain ⟨t, ht, hs⟩ := ih (x.item_id :: proc) (acc ++ [x])
        refine ⟨x :: t, ?_, hs.cons₂ x⟩
        simp only [drainLoop, if_neg h1, if_neg h2]
        rw [ht, List.append_assoc, List.singleton_append]

theorem drainLoop_inv (size : ℤ) :
    ∀ (l : List PrioritizedItem) (proc : List String) (acc : List PrioritizedItem),
      (acc.map PrioritizedItem.item_id).Nodup →
      (∀ y ∈ acc, y.item_id ∈ proc) →
      ((∀ y ∈ (drainLoop size l proc acc).1, y ∈ acc ∨ y.item_id ∉ proc) ∧
       ((drainLoop size l proc acc).1.map PrioritizedItem.item_id).Nodup ∧
       (∀ y ∈ (drainLoop size l proc acc).1, y.item_id ∈ (drainLoop size l proc acc).2.2) ∧
       (∀ i ∈ proc, i ∈ (drainLoop size l proc acc).2.2)) := by
  intro l
  induction l with
  | nil =>
    intro proc acc hnd hmem
    simp only [drainLoop]
    exact ⟨fun y hy => Or.inl hy, hnd, fun y hy => hmem y hy, fun i hi => hi⟩
  | cons x rest ih =>
    intro proc acc hnd hmem
    by_cases h1 : size ≤ (acc.length : ℤ)
    · simp only [drainLoop, if_pos h1]
      exact ⟨fun y hy => Or.inl hy, hnd, fun y hy => hmem y hy, fun i hi => hi⟩
    · by_cases h2 : x.item_id ∈ proc
      · simp only [drainLoop, if_neg h1, if_pos h2]
        exact ih proc acc hnd hmem
      · simp only [drainLoop, if_neg h1, if_neg h2]
        have hnd2 : ((acc ++ [x]).map PrioritizedItem.item_id).Nodup := by
          rw [List.map_append]
          rw [List.nodup_append]
          refine ⟨hnd, List.nodup_singleton _, ?_⟩
          intro a ha hb
          simp only [List.map_cons, List.map_nil, List.mem_singleton] at hb
          subst hb
          obtain ⟨y, hy, hyid⟩ := List.mem_map.mp ha
          exact h2 (hyid ▸ hmem y hy)
        have hmem2 : ∀ y ∈ acc ++ [x], y.item_id ∈ x.item_id :: proc := by
          intro y hy
          rcases List.mem_append.mp hy with hy2 | hy2
          · exact List.mem_cons_of_mem _ (hmem y hy2)
          · simp only [List.mem_singleton] at hy2
            subst hy2
            exact List.mem_cons_self _ _
        obtain ⟨c1, c2, c3, c4⟩ := ih (x.item_id :: proc) (acc ++ [x]) hnd2 hmem2
        refine ⟨?_, c2, c3, ?_⟩
        · intro y hy
          rcases c1 y hy with hy2 | hy2
          · rcases List.mem_append.mp hy2 with hy3 | hy3
            · exact Or.inl hy3
            · simp only [List.mem_singleton] at hy3
              subst hy3
              exact Or.inr h2
          · exact Or.inr fun hc => hy2 (List.mem_cons_of_mem _ hc)
        · intro i hi
          exact c4 i (List.mem_cons_of_mem _ hi)

theorem get_batch_some_eq (cfg : BatchConfig) (s : BatchState) (batch_type : String)
    (waited : ℚ) (batch : List PrioritizedItem)
    (h : (get_batch cfg s batch_type waited).1 = some batch) :
    batch = (drainLoop (calculate_batch_size cfg s batch_type)
        (sortAsc (s.queues batch_type)) (s.processing batch_type) []).1 ∧
    (get_batch cfg s batch_type waited).2.processing batch_type =
      (drainLoop (calculate_batch_size cfg s batch_type)
        (sortAsc (s.queues batch_type)) (s.processing batch_type) []).2.2 := by
  by_cases hq : s.queues batch_type = []
  · simp [get_batch, hq] at h
  · by_cases hb : (drainLoop (calculate_batch_size cfg s batch_type)
        (sortAsc (s.queues batch_type)) (s.processing batch_type) []).1 = []
    · simp [get_batch, hq, hb] at h
    · simp only [get_batch, if_neg hq, if_neg hb] at h ⊢
      exact ⟨(Option.some.inj h).symm, by simp⟩

/-- Configuration used by the concrete batch-formation scenario: minimum batch
size 4 so that a fresh processor (empty metrics) forms batches of four. -/
def cfgC1 : BatchConfig :=
  { min_batch_size := 4, max_batch_size := 32, max_wait_time := 5, target_latency := 1 }

/-- Submitting items with priorities 1, 5, 3 and then 2 (strictly increasing
enqueue times) to one batch type of a fresh processor. -/
def sC1 : BatchState :=
  add_to_batch cfgC1
    (add_to_batch cfgC1
      (add_to_batch cfgC1
        (add_to_batch cfgC1 batchInit "translate" "pa" "a" 1 0)
        "translate" "pb" "b" 5 1)
      "translate" "pc" "c" 3 2)
    "translate" "pd" "d" 2 3

/-- C1 (amended): batch formation dequeues in (priority ascending,
enqueue-time ascending) order — the Python `PriorityQueue` is a min-heap and
the priority is stored un-negated — and the concrete [1, 5, 3] then [2]
scenario yields the order [1, 2, 3, 5]. -/
theorem get_batch_ascending :
    (∀ (cfg : BatchConfig) (s : BatchState) (batch_type : String) (waited : ℚ)
       (batch : List PrioritizedItem),
       (get_batch cfg s batch_type waited).1 = some batch →
       batch.Pairwise itemLEP) ∧
    ((get_batch cfgC1 sC1 "translate" 0).1.map
       (fun l => l.map PrioritizedItem.priority) = some [1, 2, 3, 5]) := by
  constructor
  · intro cfg s batch_type waited batch h
    obtain ⟨hbatch, -⟩ := get_batch_some_eq cfg s batch_type waited batch h
    obtain ⟨t, ht, hsub⟩ := drainLoop_batch_sublist (calculate_batch_size cfg s batch_type)
      (sortAsc (s.queues batch_type)) (s.processing batch_type) []
    rw [List.nil_append] at ht
    have hsorted : (sortAsc (s.queues batch_type)).Pairwise itemLEP :=
      List.sorted_insertionSort itemLEP (s.queues batch_type)
    rw [hbatch, ht]
    exact hsorted.sublist hsub
  · decide

/-- C1 witness: the general sortedness conclusion evaluated on the concrete
four-item scenario. -/
theorem get_batch_ascending_witness :
    ((get_batch cfgC1 sC1 "translate" 0).1 =
      some [PrioritizedItem.mk 1 0 "a" "pa", PrioritizedItem.mk 2 3 "d" "pd",
            PrioritizedItem.mk 3 2 "c" "pc", PrioritizedItem.mk 5 1 "b" "pb"]) ∧
    List.Pairwise itemLEP
      [PrioritizedItem.mk 1 0 "a" "pa", PrioritizedItem.mk 2 3 "d" "pd",
       PrioritizedItem.mk 3 2 "c" "pc", PrioritizedItem.mk 5 1 "b" "pb"] :=
  ⟨by decide, get_batch_ascending.1 cfgC1 sC1 "translate" 0 _ (by decide)⟩

/-- C1 counterexample: the claimed order [5, 3, 2, 1] is not what `get_batch`
returns on the concrete scenario (it returns [1, 2, 3, 5]). -/
theorem get_batch_priority_desc_cex :
    (get_batch cfgC1 sC1 "translate" 0).1.map
      (fun l => l.map PrioritizedItem.priority) ≠ some [5, 3, 2, 1] := by
  decide

/-- C3: `get_batch` never returns an item whose id is already in the in-flight
(`processing`) set of its batch type, the returned batch contains no two items
with the same id, and every returned id is recorded in the post-state
in-flight set — so the same id can never be a member of two concurrently
in-flight batches. -/
theorem get_batch_in_flight_exclusion :
    ∀ (cfg : BatchConfig) (s : BatchState) (batch_type : String) (waited : ℚ)
      (batch : List PrioritizedItem),
      (get_batch cfg s batch_type waited).1 = some batch →
      (∀ it ∈ batch, it.item_id ∉ s.processing batch_type) ∧
      (batch.map PrioritizedItem.item_id).Nodup ∧
      (∀ it ∈ batch, it.item_id ∈ (get_batch cfg s batch_type waited).2.processing batch_type) := by
  intro cfg s batch_type waited batch h
  obtain ⟨hbatch, hproc⟩ := get_batch_some_eq cfg s batch_type waited batch h
  obtain ⟨c1, c2, c3, -⟩ := drainLoop_inv (calculate_batch_size cfg s batch_type)
    (sortAsc (s.queues batch_type)) (s.processing batch_type) []
    (by simp) (by simp)
  refine ⟨?_, ?_, ?_⟩
  · intro it hit
    rcases c1 it (hbatch ▸ hit) with h2 | h2
    · simp at h2
    · exact h2
  · rw [hbatch]
    exact c2
  · intro it hit
    rw [hproc]
    exact c3 it (hbatch ▸ hit)

/-- Configuration for the C3 witness scenario (minimum batch size 2). -/
def cfgC3 : BatchConfig :=
  { min_batch_size := 2, max_batch_size := 32, max_wait_time := 5, target_latency := 1 }

/-- A state whose batch type t has the id x both queued and already in
flight, plus a fresh queued id y. -/
def sC3 : BatchState :=
  { queues := fun b =>
      if b = "t" then [PrioritizedItem.mk 1 0 "x" "u", PrioritizedItem.mk 2 1 "y" "v"] else [],
    results := fun _ => [],
    processing := fun b => if b = "t" then ["x"] else [],
    events := fun _ => false,
    cache := [],
    metrics := { batch_sizes := [], processing_times := [], waiting_times := [],
                 queue_lengths := [] } }

/-- C3 witness: on the concrete state the formed batch is exactly the fresh
item y — the already-in-flight id x is excluded — and the invariant
conclusions hold there. -/
theorem get_batch_in_flight_exclusion_witness :
    ((get_batch cfgC3 sC3 "t" 0).1 = some [PrioritizedItem.mk 2 1 "y" "v"]) ∧
    ((∀ it ∈ [PrioritizedItem.mk 2 1 "y" "v"], it.item_id ∉ sC3.processing "t") ∧
     (([PrioritizedItem.mk 2 1 "y" "v"]).map PrioritizedItem.item_id).Nodup ∧
     (∀ it ∈ [PrioritizedItem.mk 2 1 "y" "v"],
        it.item_id ∈ (get_batch cfgC3 sC3 "t" 0).2.processing "t")) :=
  ⟨by decide, get_batch_in_flight_exclusion cfgC3 sC3 "t" 0 _ (by decide)⟩

/-- C6 (amended): on a cache miss, `add_to_batch` appends the item to the
batch type's queue and signals the formation event exactly when the resulting
queue length has reached the configured `max_batch_size` — the statically
configured maximum, not the adaptively computed target batch size. -/
theorem add_to_batch_signal :
    ∀ (cfg : BatchConfig) (s : BatchState) (batch_type item item_id : String)
      (priority : ℤ) (now : ℚ),
      alLookup (batch_type ++ ":" ++ item_id) s.cache = none →
      ((add_to_batch cfg s batch_type item item_id priority now).queues batch_type =
        s.queues batch_type ++
          [{ priority := priority, timestamp := now, item_id := item_id, content := item }]) ∧
      ((add_to_batch cfg s batch_type item item_id priority now).events batch_type =
        if cfg.max_batch_size ≤ ((s.queues batch_type).length + 1 : ℤ) then true
        else s.events batch_type) := by
  intro cfg s batch_type item item_id priority now h
  simp only [add_to_batch, h]
  refine ⟨by simp, ?_⟩
  simp only [if_pos rfl, List.length_append, List.length_cons, List.length_nil]
  push_cast
  rfl

/-- C6 witness: adding to a fresh single-item queue under a configuration
whose maximum batch size is not yet reached leaves the event cleared. -/
theorem add_to_batch_signal_witness :
    (alLookup ("t" ++ ":" ++ "i") batchInit.cache = none) ∧
    ((add_to_batch cfgC1 batchInit "t" "v" "i" 0 0).queues "t" =
      batchInit.queues "t" ++ [PrioritizedItem.mk 0 0 "i" "v"]) ∧
    ((add_to_batch cfgC1 batchInit "t" "v" "i" 0 0).events "t" =
      if cfgC1.max_batch_size ≤ ((batchInit.queues "t").length + 1 : ℤ) then true
      else batchInit.events "t") :=
  ⟨by decide, add_to_batch_signal cfgC1 batchInit "t" "v" "i" 0 0 (by decide)⟩

/-- Configuration for the C6 counterexample: minimum batch size 1, maximum 32. -/
def cfgC6 : BatchConfig :=
  { min_batch_size := 1, max_batch_size := 32, max_wait_time := 5, target_latency := 1 }

/-- One insertion into a fresh processor under `cfgC6`. -/
def sC6 : BatchState := add_to_batch cfgC6 batchInit "t" "v" "i" 0 0

/-- C6 counterexample: after the insert the queue length (1) has reached the
adaptively computed target batch size (1, the minimum on empty metrics), yet
the formation event is not signalled — the code compares against
`config.max_batch_size` (32) instead. -/
theorem add_to_batch_signal_cex :
    calculate_batch_size cfgC6 sC6 "t" ≤ ((sC6.queues "t").length : ℤ) ∧
    sC6.events "t" = false := by
  decide

theorem averageQ_const (l : List ℚ) (c : ℚ) (hne : l ≠ [])
    (hall : ∀ x ∈ l, x = c) : averageQ l = c := by
  have hsum : l.sum = l.length • c := List.sum_eq_card_nsmul l c hall
  have hlen : (l.length : ℚ) ≠ 0 := by
    simpa using fun h => hne (List.length_eq_zero.mp h)
  rw [averageQ, if_neg hne, hsum, nsmul_eq_mul, mul_div_cancel_left₀ _ hlen]

theorem averageN_const (l : List ℕ) (c : ℕ) (hne : l ≠ [])
    (hall : ∀ x ∈ l, x = c) : averageN l = (c : ℚ) := by
  have hsum : l.sum = l.length * c := by
    simpa [nsmul_eq_mul] using List.sum_eq_card_nsmul l c hall
  have hlen : (l.length : ℚ) ≠ 0 := by
    simpa using fun h => hne (List.length_eq_zero.mp h)
  rw [averageN, if_neg hne, hsum]
  push_cast
  rw [mul_div_cancel_left₀ _ hlen]

theorem averageN_nonneg (l : List ℕ) : 0 ≤ averageN l := by
  rw [averageN]
  by_cases h : l = []
  · simp [h]
  · rw [if_neg h]
    positivity

theorem pyInt_cast_le (q : ℚ) (h : 0 ≤ q) : (pyInt q : ℚ) ≤ q := by
  rw [pyInt, if_neg (not_lt.mpr h)]
  exact Int.floor_le q

/-- C4 (amended): whenever every processing-time sample in the window equals
2 x targetLatency (window nonempty, targetLatency positive) AND the configured
minimum batch size does not itself exceed 0.6 x the window's average batch
size, the recomputed target batch size is at most 0.6 x the average batch
size; and whenever minBatchSize <= maxBatchSize the recomputed size is clamped
into [minBatchSize, maxBatchSize]. -/
theorem calculate_batch_size_spec :
    ∀ (cfg : BatchConfig) (s : BatchState) (batch_type : String),
      (cfg.min_batch_size ≤ cfg.max_batch_size →
        cfg.min_batch_size ≤ calculate_batch_size cfg s batch_type ∧
        calculate_batch_size cfg s batch_type ≤ cfg.max_batch_size) ∧
      (s.metrics.processing_times ≠ [] →
       (∀ x ∈ s.metrics.processing_times, x = 2 * cfg.target_latency) →
       0 < cfg.target_latency →
       (cfg.min_batch_size : ℚ) ≤ 3 / 5 * averageN s.metrics.batch_sizes →
       (calculate_batch_size cfg s batch_type : ℚ) ≤
         3 / 5 * averageN s.metrics.batch_sizes) := by
  intro cfg s batch_type
  constructor
  · intro hmm
    obtain ⟨t, ht⟩ : ∃ t, calculate_batch_size cfg s batch_type =
        max cfg.min_batch_size (min cfg.max_batch_size t) := ⟨_, rfl⟩
    rw [ht]
    exact ⟨le_max_left _ _, max_le hmm (min_le_left _ _)⟩
  · intro hne hall hpos hmin
    have havg : averageQ s.metrics.processing_times = 2 * cfg.target_latency :=
      averageQ_const _ _ hne hall
    have h0 : 0 < averageQ s.metrics.processing_times := by rw [havg]; linarith
    have hgt : cfg.target_latency < averageQ s.metrics.processing_times := by
      rw [havg]; linarith
    have heq : calculate_batch_size cfg s batch_type =
        max cfg.min_batch_size (min cfg.max_batch_size
          (pyInt (averageN s.metrics.batch_sizes *
            (cfg.target_latency / averageQ s.metrics.processing_times)))) := by
      simp only [calculate_batch_size]
      rw [if_pos h0, if_pos hgt]
    have hL : cfg.target_latency ≠ 0 := ne_of_gt hpos
    have hratio : cfg.target_latency / averageQ s.metrics.processing_times = 1 / 2 := by
      rw [havg]
      rw [eq_div_iff (by norm_num : (2 : ℚ) ≠ 0)]
      field_simp
      ring
    have hbn : 0 ≤ averageN s.metrics.batch_sizes := averageN_nonneg _
    have hprod : 0 ≤ averageN s.metrics.batch_sizes *
        (cfg.target_latency / averageQ s.metrics.processing_times) := by
      rw [hratio]; linarith
    have htle : (pyInt (averageN s.metrics.batch_sizes *
        (cfg.target_latency / averageQ s.metrics.processing_times)) : ℚ) ≤
        3 / 5 * averageN s.metrics.batch_sizes := by
      refine le_trans (pyInt_cast_le _ hprod) ?_
      rw [hratio]
      linarith
    rw [heq]
    push_cast
    exact max_le hmin (le_trans (min_le_right _ _) htle)

/-- Configuration for the C4 counterexample: minimum batch size 10. -/
def cfgC4 : BatchConfig :=
  { min_batch_size := 10, max_batch_size := 32, max_wait_time := 5, target_latency := 1 }

/-- Metrics window of 50 samples with processing time 2 x targetLatency and
average batch size 2. -/
def sC4 : BatchState :=
  { queues := fun _ => [], results := fun _ => [], processing := fun _ => [],
    events := fun _ => false, cache := [],
    metrics := { batch_sizes := List.replicate 50 2,
                 processing_times := List.replicate 50 2,
                 waiting_times := List.replicate 50 0,
                 queue_lengths := List.replicate 50 0 } }

/-- C4 counterexample: with every sample at 2 x targetLatency the recomputed
size is clamped up to the minimum batch size 10, which exceeds 0.6 x the
average batch size (0.6 x 2 = 1.2), refuting the claimed shrink bound. -/
theorem calculate_batch_size_shrink_cex :
    (∀ x ∈ sC4.metrics.processing_times, x = 2 * cfgC4.target_latency) ∧
    sC4.metrics.processing_times.length = 50 ∧
    ¬ ((calculate_batch_size cfgC4 sC4 "t" : ℚ) ≤
        3 / 5 * averageN sC4.metrics.batch_sizes) := by
  have hall : ∀ x ∈ sC4.metrics.processing_times, x = 2 * cfgC4.target_latency := by
    intro x hx
    show x = 2 * (1 : ℚ)
    have := List.eq_of_mem_replicate hx
    rw [this]
    norm_num
  refine ⟨hall, by simp [sC4], ?_⟩
  have hne : sC4.metrics.processing_times ≠ [] := by simp [sC4]
  have havg : averageQ sC4.metrics.processing_times = 2 := by
    have := averageQ_const sC4.metrics.processing_times 2 hne
      (by intro x hx; exact List.eq_of_mem_replicate hx)
    exact this
  have havgN : averageN sC4.metrics.batch_sizes = 2 := by
    have := averageN_const sC4.metrics.batch_sizes 2 (by simp [sC4])
      (by intro x hx; exact List.eq_of_mem_replicate hx)
    rw [this]
    norm_num
  have h0 : 0 < averageQ sC4.metrics.processing_times := by rw [havg]; norm_num
  have hgt : cfgC4.target_latency < averageQ sC4.metrics.processing_times := by
    rw [havg]; show (1 : ℚ) < 2; norm_num
  have heq : calculate_batch_size cfgC4 sC4 "t" =
      max cfgC4.min_batch_size (min cfgC4.max_batch_size
        (pyInt (averageN sC4.metrics.batch_sizes *
          (cfgC4.target_latency / averageQ sC4.metrics.processing_times)))) := by
    simp only [calculate_batch_size]
    rw [if_pos h0, if_pos hgt]
  have harg : averageN sC4.metrics.batch_sizes *
      (cfgC4.target_latency / averageQ sC4.metrics.processing_times) = 1 := by
    rw [havgN, havg]
    show (2 : ℚ) * (1 / 2) = 1
    norm_num
  have hpy : pyInt (averageN sC4.metrics.batch_sizes *
      (cfgC4.target_latency / averageQ sC4.metrics.processing_times)) = 1 := by
    rw [harg, pyInt, if_neg (by norm_num : ¬(1 : ℚ) < 0)]
    exact Int.floor_one
  rw [heq, hpy, havgN]
  show ¬((max (10 : ℤ) (min 32 1) : ℚ) ≤ 3 / 5 * 2)
  norm_num

/-- Configuration for the C4 witness: minimum batch size 1. -/
def cfgW4 : BatchConfig :=
  { min_batch_size := 1, max_batch_size := 32, max_wait_time := 5, target_latency := 1 }

/-- A metrics window with two samples at 2 x targetLatency and average batch
size 4. -/
def sW4 : BatchState :=
  { queues := fun _ => [], results := fun _ => [], processing := fun _ => [],
    events := fun _ => false, cache := [],
    metrics := { batch_sizes := [4, 4], processing_times := [2, 2],
                 waiting_times := [0, 0], queue_lengths := [0, 0] } }

/-- C4 witness: both conclusions of the amended claim at a concrete window. -/
theorem calculate_batch_size_spec_witness :
    (cfgW4.min_batch_size ≤ cfgW4.max_batch_size ∧
     cfgW4.min_batch_size ≤ calculate_batch_size cfgW4 sW4 "t" ∧
     calculate_batch_size cfgW4 sW4 "t" ≤ cfgW4.max_batch_size) ∧
    ((calculate_batch_size cfgW4 sW4 "t" : ℚ) ≤
      3 / 5 * averageN sW4.metrics.batch_sizes) := by
  have havgN : averageN sW4.metrics.batch_sizes = 4 := by
    have := averageN_const sW4.metrics.batch_sizes 4 (by simp [sW4])
      (by intro x hx; simp [sW4] at hx; omega)
    rw [this]
    norm_num
  refine ⟨⟨by decide, (calculate_batch_size_spec cfgW4 sW4 "t").1 (by decide)⟩, ?_⟩
  refine (calculate_batch_size_spec cfgW4 sW4 "t").2 (by simp [sW4]) ?_ (by decide) ?_
  · intro x hx
    simp [sW4] at hx
    rw [hx]
    show (2 : ℚ) = 2 * 1
    norm_num
  · rw [havgN]
    show ((1 : ℤ) : ℚ) ≤ 3 / 5 * 4
    norm_num

/-- The memory-accounting invariant of the cache manager: the tracked total
equals the sum of the stored items' sizes. -/
def MemInvariant (s : CacheState) : Prop := s.stats.memory_usage = memSum s

theorem alErase_size_sum (k : String) :
    ∀ (l : List (String × CacheItem)) (it : CacheItem), alLookup k l = some it →
      ((alErase k l).map fun p => ((p.2.size : ℤ))).sum =
        ((l.map fun p => ((p.2.size : ℤ))).sum) - (it.size : ℤ) := by
  intro l
  induction l with
  | nil => intro it h; simp [alLookup] at h
  | cons p rest ih =>
    intro it h
    obtain ⟨k2, v2⟩ := p
    by_cases h2 : k2 = k
    · simp only [alLookup, if_pos h2] at h
      obtain rfl := Option.some.inj h
      simp only [alErase, if_pos h2, List.map_cons, List.sum_cons]
      ring
    · simp only [alLookup, if_neg h2] at h
      simp only [alErase, if_neg h2, List.map_cons, List.sum_cons, ih it h]
      ring

theorem alSet_size_sum (k : String) (v : CacheItem) :
    ∀ (l : List (String × CacheItem)) (it : CacheItem), alLookup k l = some it →
      ((alSet k v l).map fun p => ((p.2.size : ℤ))).sum =
        ((l.map fun p => ((p.2.size : ℤ))).sum) - (it.size : ℤ) + (v.size : ℤ) := by
  intro l
  induction l with
  | nil => intro it h; simp [alLookup] at h
  | cons p rest ih =>
    intro it h
    obtain ⟨k2, v2⟩ := p
    by_cases h2 : k2 = k
    · simp only [alLookup, if_pos h2] at h
      obtain rfl := Option.some.inj h
      simp only [alSet, if_pos h2, List.map_cons, List.sum_cons]
      ring
    · simp only [alLookup, if_neg h2] at h
      simp only [alSet, if_neg h2, List.map_cons, List.sum_cons, ih it h]
      ring

theorem remove_item_inv (k : String) (s : CacheState) (h : MemInvariant s) :
    MemInvariant (remove_item k s) := by
  unfold remove_item
  cases hl : alLookup k s.cache with
  | none => exact h
  | some it =>
    show s.stats.memory_usage - (it.size : ℤ) =
      ((alErase k s.cache).map fun p => ((p.2.size : ℤ))).sum
    rw [alErase_size_sum k s.cache it hl]
    show s.stats.memory_usage - (it.size : ℤ) = memSum s - (it.size : ℤ)
    rw [h]

theorem evictLoop_inv (req : ℤ) :
    ∀ (scored : List (String × ℝ)) (freed : ℤ) (s : CacheState),
      MemInvariant s → MemInvariant (evictLoop req scored freed s) := by
  intro scored
  induction scored with
  | nil => intro freed s h; exact h
  | cons p rest ih =>
    intro freed s h
    obtain ⟨k, sc⟩ := p
    show MemInvariant (match alLookup k s.cache with
      | none => s
      | some item =>
        let freed2 := freed + (item.size : ℤ)
        let s2 := remove_item k s
        if req ≤ freed2 then s2 else evictLoop req rest freed2 s2)
    cases hl : alLookup k s.cache with
    | none => exact h
    | some item =>
      have h2 := remove_item_inv k s h
      by_cases hb : req ≤ freed + (item.size : ℤ)
      · simpa [hb] using h2
      · simpa [hb] using ih (freed + (item.size : ℤ)) (remove_item k s) h2

theorem evict_items_inv (now : ℚ) (req : ℤ) (s : CacheState) (h : MemInvariant s) :
    MemInvariant (evict_items now req s) := by
  unfold evict_items
  by_cases hc : s.cache = []
  · simpa [hc] using h
  · simpa [hc] using evictLoop_inv req _ 0 s h

theorem cacheSetStore_inv (key value : String) (size : ℕ) (expiry : Option ℚ)
    (now : ℚ) (s1 : CacheState) (h1 : MemInvariant s1) :
    MemInvariant (cacheSetStore key value size expiry now s1) := by
  have h1e : s1.stats.memory_usage = (s1.cache.map fun p => ((p.2.size : ℤ))).sum := h1
  unfold cacheSetStore
  cases hl : alLookup key s1.cache with
  | some item =>
    simp only [MemInvariant, memSum]
    rw [alSet_size_sum key _ s1.cache item hl, h1e]
  | none =>
    simp only [MemInvariant, memSum]
    rw [List.map_append, List.sum_append, h1e]
    simp

theorem cacheSet_inv (cfg : CacheConfig) (key value : String) (size : ℕ)
    (ttl : Option ℚ) (now : ℚ) (s : CacheState) (h : MemInvariant s) :
    MemInvariant (cacheSet cfg key value size ttl now s) := by
  unfold cacheSet
  by_cases hbig : cfg.max_memory_mb * 1024 * 1024 < (size : ℤ)
  · simpa [hbig] using h
  · rw [if_neg hbig]
    apply cacheSetStore_inv
    by_cases hcond : cfg.max_memory_mb * 1024 * 1024 < s.stats.memory_usage +
        (match alLookup key s.cache with
         | some item => (size : ℤ) - (item.size : ℤ)
         | none => (size : ℤ))
    · simpa [hcond] using evict_items_inv now _ s h
    · simpa [hcond] using h

theorem cacheGet_inv (key : String) (now : ℚ) (s : CacheState) (h : MemInvariant s) :
    MemInvariant (cacheGet key now s).2 := by
  have he : s.stats.memory_usage = (s.cache.map fun p => ((p.2.size : ℤ))).sum := h
  unfold cacheGet
  cases hl : alLookup key s.cache with
  | none => exact h
  | some item =>
    dsimp only
    by_cases hex : (match item.expiry with | some e => decide (e ≤ now) | none => false) = true
    · rw [if_pos hex]
      exact remove_item_inv key s h
    · rw [if_neg hex]
      simp only [MemInvariant, memSum]
      rw [alSet_size_sum key _ s.cache item hl]
      dsimp only
      rw [sub_add_cancel]
      exact he

theorem cacheClear_inv (s : CacheState) : MemInvariant (cacheClear s) := by
  simp [MemInvariant, memSum, cacheClear]

theorem applyCacheOp_inv (cfg : CacheConfig) (s : CacheState) (op : CacheOp)
    (h : MemInvariant s) : MemInvariant (applyCacheOp cfg s op) := by
  cases op with
  | opSet key value size ttl now => exact cacheSet_inv cfg key value size ttl now s h
  | opGet key now => exact cacheGet_inv key now s h
  | opRemove key => exact remove_item_inv key s h
  | opEvict required now => exact evict_items_inv now required s h
  | opClear => exact cacheClear_inv s

/-- C2: after every finite sequence of set, get, remove, eviction and clear
operations the tracked counter stats.memory_usage equals the sum of the size
fields of all items currently stored in the cache. -/
theorem cache_memory_accounting :
    ∀ (cfg : CacheConfig) (ops : List CacheOp),
      (runCacheOps cfg ops cacheInit).stats.memory_usage =
        memSum (runCacheOps cfg ops cacheInit) := by
  intro cfg ops
  have main : ∀ (l : List CacheOp) (s : CacheState), MemInvariant s →
      MemInvariant (runCacheOps cfg l s) := by
    intro l
    induction l with
    | nil => intro s h; exact h
    | cons op rest ih =>
      intro s h
      exact ih (applyCacheOp cfg s op) (applyCacheOp_inv cfg s op h)
  exact main ops cacheInit rfl

theorem evictLoop_lookup_none (key : String) (req : ℤ) :
    ∀ (scored : List (String × ℝ)) (freed : ℤ) (s : CacheState),
      alLookup key s.cache = none →
      alLookup key (evictLoop req scored freed s).cache = none := by
  intro scored
  induction scored with
  | nil => intro freed s h; exact h
  | cons p rest ih =>
    intro freed s h
    obtain ⟨k2, sc⟩ := p
    show alLookup key (match alLookup k2 s.cache with
      | none => s
      | some item =>
        let freed2 := freed + (item.size : ℤ)
        let s2 := remove_item k2 s
        if req ≤ freed2 then s2 else evictLoop req rest freed2 s2).cache = none
    cases hl : alLookup k2 s.cache with
    | none => exact h
    | some item =>
      have h2 : alLookup key (remove_item k2 s).cache = none := by
        unfold remove_item
        rw [hl]
        exact alLookup_alErase_none key k2 s.cache h
      by_cases hb : req ≤ freed + (item.size : ℤ)
      · simpa [hb] using h2
      · simpa [hb] using ih (freed + (item.size : ℤ)) (remove_item k2 s) h2

theorem evict_items_lookup_none (key : String) (now : ℚ) (req : ℤ) (s : CacheState)
    (h : alLookup key s.cache = none) :
    alLookup key (evict_items now req s).cache = none := by
  unfold evict_items
  by_cases hc : s.cache = []
  · simpa [hc] using h
  · simpa [hc] using evictLoop_lookup_none key req _ 0 s h

theorem cacheSet_fresh_item (cfg : CacheConfig) (key value : String) (size : ℕ)
    (ttl : Option ℚ) (now : ℚ) (s : CacheState)
    (h : alLookup key s.cache = none)
    (h2 : (size : ℤ) ≤ cfg.max_memory_mb * 1024 * 1024) :
    alLookup key (cacheSet cfg key value size ttl now s).cache =
      some (CacheItem.mk key value (computeExpiry cfg ttl now) 0 now size) := by
  simp only [cacheSet, h]
  rw [if_neg (not_lt.mpr h2)]
  have hs1 : alLookup key
      (if cfg.max_memory_mb * 1024 * 1024 < s.stats.memory_usage + (size : ℤ) then
        evict_items now (size : ℤ) s
      else s).cache = none := by
    by_cases hc : cfg.max_memory_mb * 1024 * 1024 < s.stats.memory_usage + (size : ℤ)
    · simpa [hc] using evict_items_lookup_none key now (size : ℤ) s h
    · simpa [hc] using h
  unfold cacheSetStore
  rw [hs1]
  exact alLookup_append_self key _ _ hs1

/-- C9: the eviction-score denominator `log1p(access_count)` is zero exactly
for items whose access count is zero, and every item freshly stored by `set`
has access count zero (it stays zero until the first `get`); therefore the
score computation divides by zero whenever eviction scores a never-read item,
and the denominator is nonzero only under the precondition
`access_count >= 1`. -/
theorem frequency_factor_zero :
    (∀ it : CacheItem, frequencyFactor it = 0 ↔ it.access_count = 0) ∧
    (∀ (cfg : CacheConfig) (key value : String) (size : ℕ) (ttl : Option ℚ)
       (now : ℚ) (s : CacheState),
       alLookup key s.cache = none →
       (size : ℤ) ≤ cfg.max_memory_mb * 1024 * 1024 →
       ∃ it, alLookup key (cacheSet cfg key value size ttl now s).cache = some it ∧
         it.access_count = 0 ∧ frequencyFactor it = 0) := by
  have hzero : ∀ it : CacheItem, frequencyFactor it = 0 ↔ it.access_count = 0 := by
    intro it
    constructor
    · intro h
      by_contra hc
      have h1 : 1 ≤ it.access_count := Nat.one_le_iff_ne_zero.mpr hc
      have h2 : (1 : ℝ) < 1 + (it.access_count : ℝ) := by
        have : (1 : ℝ) ≤ (it.access_count : ℝ) := by exact_mod_cast h1
        linarith
      exact absurd h (ne_of_gt (Real.log_pos h2))
    · intro h
      rw [frequencyFactor, h]
      norm_num
  refine ⟨hzero, ?_⟩
  intro cfg key value size ttl now s h h2
  refine ⟨CacheItem.mk key value (computeExpiry cfg ttl now) 0 now size,
    cacheSet_fresh_item cfg key value size ttl now s h h2, rfl, ?_⟩
  exact (hzero _).mpr rfl

/-- C9 witness: a fresh key stored into an empty cache manager. -/
theorem frequency_factor_zero_witness :
    (alLookup "k" cacheInit.cache = none) ∧
    ((4 : ℤ) ≤ (512 : ℤ) * 1024 * 1024) ∧
    ∃ it, alLookup "k"
        (cacheSet (CacheConfig.mk 1000 512 none 300) "k" "v" 4 none 0 cacheInit).cache =
        some it ∧ it.access_count = 0 ∧ frequencyFactor it = 0 :=
  ⟨rfl, by decide,
    frequency_factor_zero.2 (CacheConfig.mk 1000 512 none 300) "k" "v" 4 none 0 cacheInit
      rfl (by decide)⟩

/-- Configuration for the C8 counterexample: `max_size` 1, ample memory. -/
def cfgC8 : CacheConfig := { max_size := 1, max_memory_mb := 512, default_ttl := none,
                             cleanup_interval := 300 }

/-- Two `set` calls with distinct keys. -/
def opsC8 : List CacheOp :=
  [CacheOp.opSet "a" "va" 1 none 0, CacheOp.opSet "b" "vb" 1 none 0]

/-- C8 counterexample: two sets of distinct small keys leave two items in a
cache configured with `max_size = 1` — the item count exceeds `max_size`. -/
theorem cache_count_bound_cex :
    ¬ (((runCacheOps cfgC8 opsC8 cacheInit).cache.length : ℤ) ≤ cfgC8.max_size) := by
  decide

/-- C8 (amended): the item count of the cache manager is not bounded by the
configured `max_size`, which `set` never consults: two sets of distinct keys
yield two stored items even though `max_size` is 1. -/
theorem cache_count_not_bounded :
    (runCacheOps cfgC8 opsC8 cacheInit).cache.length = 2 ∧
    cfgC8.max_size < ((runCacheOps cfgC8 opsC8 cacheInit).cache.length : ℤ) := by
  constructor <;> decide

/-- Item A of the C7 scenario: heavily accessed (count 100), touched at the
current instant 3600 s. -/
def itemA (sz : ℕ) : CacheItem := CacheItem.mk "a" "va" none 100 3600 sz

/-- Item B of the C7 scenario: accessed once, last touched one hour (3600 s)
before the current instant. -/
def itemB (sz : ℕ) : CacheItem := CacheItem.mk "b" "vb" none 1 0 sz

/-- Cache holding exactly A and B (equal sizes), consistent stats. -/
def sC7 (sz : ℕ) : CacheState :=
  CacheState.mk [("a", itemA sz), ("b", itemB sz)] [("a", sz), ("b", sz)]
    (CacheStats.mk 0 0 0 (2 * (sz : ℤ)))

theorem itemScore_A_eq_zero (sz : ℕ) : itemScore 3600 (itemA sz) = 0 := by
  simp [itemScore, itemA]

theorem itemScore_B_pos (sz : ℕ) (h : 0 < sz) : 0 < itemScore 3600 (itemB sz) := by
  unfold itemScore itemB frequencyFactor
  apply div_pos
  · apply mul_pos
    · push_cast
      norm_num
    · apply div_pos
      · exact_mod_cast h
      · norm_num
  · apply Real.log_pos
    push_cast
    norm_num

theorem evict_items_sC7 (sz : ℕ) (h : 0 < sz) :
    evict_items 3600 1 (sC7 sz) = remove_item "b" (sC7 sz) := by
  have hr : ¬ (itemScore 3600 (itemB sz) ≤ itemScore 3600 (itemA sz)) := by
    rw [itemScore_A_eq_zero]
    exact not_le.mpr (itemScore_B_pos sz h)
  have hmap : (sC7 sz).cache.map (fun p => (p.1, itemScore 3600 p.2)) =
      [("a", itemScore 3600 (itemA sz)), ("b", itemScore 3600 (itemB sz))] := rfl
  have hsort : sortScoresDesc [("a", itemScore 3600 (itemA sz)),
      ("b", itemScore 3600 (itemB sz))] =
      [("b", itemScore 3600 (itemB sz)), ("a", itemScore 3600 (itemA sz))] := by
    unfold sortScoresDesc
    simp only [List.insertionSort, List.orderedInsert]
    rw [if_neg hr]
  have hlb : alLookup "b" (sC7 sz).cache = some (itemB sz) := by
    simp [sC7, alLookup]
  have hfree : (1 : ℤ) ≤ 0 + ((itemB sz).size : ℤ) := by
    show (1 : ℤ) ≤ 0 + (sz : ℤ)
    omega
  unfold evict_items
  rw [if_neg (by simp [sC7] : ¬ (sC7 sz).cache = []), hmap, hsort]
  show (match alLookup "b" (sC7 sz).cache with
    | none => sC7 sz
    | some item =>
      let freed2 := 0 + (item.size : ℤ)
      let s2 := remove_item "b" (sC7 sz)
      if (1 : ℤ) ≤ freed2 then s2
      else evictLoop 1 [("a", itemScore 3600 (itemA sz))] freed2 s2) = remove_item "b" (sC7 sz)
  rw [hlb]
  exact if_pos hfree

/-- C7: the eviction score is (seconds since last access x size in KB) /
ln(1 + access_count); for two items of equal positive size, A with access
count 100 touched now and B with access count 1 touched one hour ago, B's
score is strictly greater than A's, and eviction under memory pressure
removes B while A stays. -/
theorem eviction_score_order (sz : ℕ) (h : 0 < sz) :
    itemScore 3600 (itemA sz) < itemScore 3600 (itemB sz) ∧
    alLookup "b" (evict_items 3600 1 (sC7 sz)).cache = none ∧
    alLookup "a" (evict_items 3600 1 (sC7 sz)).cache = some (itemA sz) := by
  refine ⟨?_, ?_, ?_⟩
  · rw [itemScore_A_eq_zero]
    exact itemScore_B_pos sz h
  · rw [evict_items_sC7 sz h]
    simp [remove_item, sC7, alErase, alLookup, itemA, itemB]
  · rw [evict_items_sC7 sz h]
    simp [remove_item, sC7, alErase, alLookup, itemA, itemB]

/-- C7 witness: the scenario at the concrete size 1024 bytes. -/
theorem eviction_score_order_witness :
    (0 < 1024) ∧
    (itemScore 3600 (itemA 1024) < itemScore 3600 (itemB 1024) ∧
     alLookup "b" (evict_items 3600 1 (sC7 1024)).cache = none ∧
     alLookup "a" (evict_items 3600 1 (sC7 1024)).cache = some (itemA 1024)) :=
  ⟨by decide, eviction_score_order 1024 (by decide)⟩
